import Mathlib

/-!
# Verification of git-instafix against its specification

Shallow embedding of the core of `git-instafix` (quodlibetor/git-instafix):
the fixup-and-propagate rebase engine (`src/lib.rs` / `src/rebaser.rs`),
the commit selector (`src/lib.rs` / `src/selecter.rs`), the
upstream/boundary resolver (`get_merge_base`) and the amendment diff
builder (`create_diff` in `src/patcher.rs`).

Commit identities (git oids) are modelled as natural numbers; commit maps
and branch indexes are association lists mirroring the `HashMap`s of the
source; fallible operations return `Except String`.  The repository engine
primitives (libgit2) are treated as external collaborators, exactly as the
specification's scope section prescribes: the rebase primitive's step
stream is an explicit list of `Except String RebaseOperation` values, and
diff application is an explicit function argument.
-/

namespace GitInstafix

/-- A commit identity (git object id), modelled as a natural number. -/
abbrev Oid := Nat

/-- Rendering of an oid, modelling `Oid::to_string` (hex in the source). -/
def oidStr (o : Oid) : String := toString o

/-- The data of a commit, as the engine observes it through `git2::Commit`:
`message()` (`none` models a message that is not valid UTF-8), author,
parent ids and the tree. -/
structure CommitData where
  message : Option String
  author : String
  parents : List Oid
  tree : Nat
deriving DecidableEq

/-- First line of a string; `git2::Commit::summary` is the first line of
the message. -/
def firstLine (s : String) : String :=
  String.mk (s.data.takeWhile (fun c => c ≠ '\n'))

/-- `Commit::summary()`: the one-line summary, absent when the message is. -/
def CommitData.summary (c : CommitData) : Option String :=
  c.message.map firstLine

/-- `disp` from src/lib.rs: display a commit as "short_hash summary".
(The source slices the first 10 characters of the 40-character hex id.) -/
def disp (id : Oid) (c : CommitData) : String :=
  (oidStr id).take 10 ++ " " ++ (c.summary.getD "<no summary>")

/-- A local branch ref as the branch index sees it: its name (`none`
models a non-UTF-8 name) and its target commit. -/
structure BranchRef where
  name : Option String
  target : Oid
deriving DecidableEq

/-- `RepoBranches` from src/lib.rs / src/rebaser.rs: the mapping from a
commit id to the branches currently pointing at it, as an association
list. -/
abbrev RepoBranches := List (Oid × List BranchRef)

/-- The commit store: id to commit data, as an association list. -/
abbrev CommitMap := List (Oid × CommitData)

/-- `RepoBranches::retarget_branches` from src/lib.rs (lines 192-209): if
any branches are indexed under `original_commit` and the rebase is not at
its last operation, point them all at `target_commit`; otherwise leave the
index unchanged.  This version returns no records and cannot fail. -/
def retarget_branches (m : RepoBranches) (original_commit target_commit : Oid)
    (operation_current : Option Nat) (rebase_len : Nat) : RepoBranches :=
  match List.lookup original_commit m with
  | some _ =>
    if operation_current ≠ some (rebase_len - 1) then
      m.map (fun e =>
        if e.1 = original_commit then
          (e.1, e.2.map (fun b => { b with target := target_commit }))
        else e)
    else m
  | none => m

/-- `RetargetedBranch` from src/rebaser.rs: the observability record
produced for every branch that was moved (`from`/`to` are `fromId`/`toId`
here because `from` is reserved in Lean). -/
structure RetargetedBranch where
  name : String
  fromId : Oid
  toId : Oid
deriving DecidableEq

namespace Rebaser

/-- The record-building loop inside `retarget_branches` of src/rebaser.rs:
one `RetargetedBranch` per branch, failing when a branch has no
(UTF-8) name.  (On the name-error path the source has already mutated the
refs of the earlier branches in the entry; that partial mutation is not
observable in any claim proved here, so the model returns the error
atomically.) -/
def buildRetargets : List BranchRef → Oid → Oid → Except String (List RetargetedBranch)
  | [], _, _ => .ok []
  | b :: rest, original, target =>
    match b.name with
    | none => .error "branch should have a name"
    | some n =>
      match buildRetargets rest original target with
      | .error e => .error e
      | .ok rs => .ok ({ name := n, fromId := original, toId := target } :: rs)

/-- `RepoBranches::retarget_branches` from src/rebaser.rs (lines 159-187):
as the lib.rs version, but returns one `{name, from, to}` record per moved
branch and fails when a moved branch has no name. -/
def retarget_branches (m : RepoBranches) (original_commit target_commit : Oid)
    (operation_current : Option Nat) (rebase_len : Nat) :
    Except String (RepoBranches × List RetargetedBranch) :=
  match List.lookup original_commit m with
  | some branches =>
    if operation_current ≠ some (rebase_len - 1) then
      match buildRetargets branches original_commit target_commit with
      | .error e => .error e
      | .ok recs =>
        .ok (m.map (fun e =>
          if e.1 = original_commit then
            (e.1, e.2.map (fun b => { b with target := target_commit }))
          else e), recs)
    else .ok (m, [])
  | none => .ok (m, [])

end Rebaser

/-! ## The fixup-and-propagate rebase engine (src/lib.rs, lines 35-177) -/

/-- `git2::RebaseOperationType`. -/
inductive RebaseOperationType where
  | Pick
  | Reword
  | Edit
  | Squash
  | Fixup
  | Exec
deriving DecidableEq

/-- Debug rendering of a `RebaseOperationType`, as `{:?}` prints it. -/
def kindName : RebaseOperationType → String
  | .Pick => "Pick"
  | .Reword => "Reword"
  | .Edit => "Edit"
  | .Squash => "Squash"
  | .Fixup => "Fixup"
  | .Exec => "Exec"

/-- One step of a rewrite operation: the operation kind (absent for
kind-less entries) and the id of the original commit it processes. -/
structure RebaseOperation where
  kind : Option RebaseOperationType
  id : Oid
deriving DecidableEq

/-- The repository state the engine mutates: the object store, the branch
index, the current branch's ref target, the (detached) HEAD, the index and
working trees, a fresh-oid supply modelling content addressing, the stash
stack, and whether a rewrite operation is in progress. -/
structure EngineState where
  commits : CommitMap
  branches : RepoBranches
  branchTip : Oid
  head : Oid
  indexTree : Nat
  workdirTree : Nat
  nextOid : Oid
  stash : List (Nat × Nat)
  rebaseInProgress : Bool
deriving DecidableEq

/-- `commit_parent` from src/lib.rs (lines 212-217): the first parent of a
commit, or an error naming the commit when it has none. -/
def commit_parent (commits : CommitMap) (id : Oid) : Except String Oid :=
  match List.lookup id commits with
  | none => .error ("could not find commit " ++ oidStr id)
  | some c =>
    match c.parents.head? with
    | some p => .ok p
    | none => .error ("Commit \x27" ++ disp id c ++ "\x27 has no parents")

/-- The three lines printed by `print_help_and_abort_rebase`
(src/lib.rs lines 103-115), the last naming the parent of the selected
commit for manual recovery. -/
def rebase_help_lines (first_parent : Oid) : List String :=
  ["Aborting rebase, your changes are in the head commit.",
   "You can apply it manually via:",
   "    git rebase --interactive --autosquash " ++ oidStr first_parent ++ "~"]

/-- `git_rebase_abort`: resets the rebased branch to the head recorded
when the rebase started and discards the in-progress rewrite. -/
def rebase_abort (origHead : Oid) (s : EngineState) : EngineState :=
  { s with branchTip := origHead, rebaseInProgress := false }

/-- `print_help_and_abort_rebase` from src/lib.rs: print the recovery
guidance, then abort the in-progress rebase. -/
def print_help_and_abort_rebase (first_parent origHead : Oid) (s : EngineState) :
    List String × EngineState :=
  (rebase_help_lines first_parent, rebase_abort origHead s)

/-- `apply_diff_in_rebase` from src/lib.rs (lines 117-144): take the first
rebase step, apply the amendment diff to the index, write the tree, amend
the target commit in place (a fresh identity), retarget branches pointed
at the original identity, and soft-reset to the rewritten commit.
`applyDiff` is the external patch-application primitive (`none` models an
apply failure such as a conflict); `ops` is the rebase primitive's step
stream. -/
def apply_diff_in_rebase (applyDiff : Nat → Nat → Option Nat) (diff : Nat)
    (ops : List (Except String RebaseOperation)) (s : EngineState) :
    EngineState × Except String Unit :=
  match ops with
  | [] => (s, .error "Unable to start rebase: no first step in rebase")
  | res :: _ =>
    match res with
    | .error e => (s, .error ("No commit: " ++ e))
    | .ok op =>
      match List.lookup op.id s.commits with
      | none => (s, .error ("could not find commit " ++ oidStr op.id))
      | some target_commit =>
        match applyDiff diff s.indexTree with
        | none => (s, .error "failed to apply diff")
        | some idx =>
          let rewrit_id := s.nextOid
          let s1 : EngineState := { s with
            commits := (rewrit_id, { target_commit with tree := idx }) :: s.commits,
            nextOid := s.nextOid + 1,
            indexTree := idx }
          let s2 : EngineState := { s1 with
            branches := retarget_branches s1.branches op.id rewrit_id (some 0) ops.length }
          ({ s2 with head := rewrit_id }, .ok ())

/-- `rebase.commit(None, &sig, None)`: commit the current step's commit
verbatim (same tree, message and author) with the current HEAD as parent,
producing a fresh identity, and advance HEAD to it. -/
def rebase_commit (commit : CommitData) (s : EngineState) : Oid × EngineState :=
  let new_id := s.nextOid
  (new_id, { s with
    commits := (new_id, { commit with parents := [s.head] }) :: s.commits,
    nextOid := s.nextOid + 1,
    head := new_id })

/-- Result of processing one step of the `do_rebase_inner` loop. -/
inductive StepOutcome where
  | next (s : EngineState)
  | fail (s : EngineState) (e : String)
deriving DecidableEq

/-- The state carried by a step outcome. -/
def StepOutcome.state : StepOutcome → EngineState
  | .next s => s
  | .fail s _ => s

/-- The body of the `do_rebase_inner` loop from src/lib.rs (lines
155-173), for the operation at index `idx` of a rewrite of `rebase_len`
steps: a `Pick` whose message is present and differs from the fixup
sentinel is committed verbatim and its branches retargeted; any other
`Pick` (sentinel message, or no UTF-8 message) is skipped; `Fixup`,
`Squash`, `Exec`, `Edit` and `Reword` operations fail; kind-less
operations are skipped. -/
def rebase_step (fixup_message : Option String) (rebase_len : Nat)
    (res : Except String RebaseOperation) (idx : Nat) (s : EngineState) : StepOutcome :=
  match res with
  | .error e => .fail s ("Err: " ++ e)
  | .ok op =>
    match op.kind with
    | some .Pick =>
      match List.lookup op.id s.commits with
      | none => .fail s ("could not find commit " ++ oidStr op.id)
      | some commit =>
        let message := commit.message
        if message.isSome ∧ message ≠ fixup_message then
          let r := rebase_commit commit s
          .next { r.2 with
            branches := retarget_branches r.2.branches op.id r.1 (some idx) rebase_len }
        else .next s
    | some k => .fail s ("Unable to handle " ++ kindName k ++ " rebase operation")
    | none => .next s

/-- The `while let Some(ref res) = rebase.next()` loop of
`do_rebase_inner`, walking the remaining operations from index `idx`. -/
def rebase_loop (fixup_message : Option String) (rebase_len : Nat) :
    List (Except String RebaseOperation) → Nat → EngineState →
    EngineState × Except String Unit
  | [], _, s => (s, .ok ())
  | res :: rest, idx, s =>
    match rebase_step fixup_message rebase_len res idx s with
    | .next s1 => rebase_loop fixup_message rebase_len rest (idx + 1) s1
    | .fail s1 e => (s1, .error e)

/-- `do_rebase_inner` from src/lib.rs (lines 147-177): replay every
operation after the first, which `apply_diff_in_rebase` already consumed. -/
def do_rebase_inner (fixup_message : Option String)
    (ops : List (Except String RebaseOperation)) (s : EngineState) :
    EngineState × Except String Unit :=
  rebase_loop fixup_message ops.length (ops.drop 1) 1 s

/-- `do_rebase` from src/lib.rs (lines 69-101): resolve the parent of the
commit to amend, read the fixup (amendment) commit from the branch tip,
start the rewrite, run `apply_diff_in_rebase` and then `do_rebase_inner`;
on success finish the rebase (the primitive moves the branch ref to the
rebased head), on any failure print the recovery guidance and abort.
Returns the printed lines, the final state and the result. -/
def do_rebase (applyDiff : Nat → Nat → Option Nat)
    (ops : List (Except String RebaseOperation))
    (commit_to_amend : Oid) (diff : Nat) (s : EngineState) :
    List String × EngineState × Except String Unit :=
  match commit_parent s.commits commit_to_amend with
  | .error e => ([], s, .error e)
  | .ok first_parent =>
    match List.lookup s.branchTip s.commits with
    | none => ([], s, .error "could not peel branch to commit")
    | some fixup_commit =>
      let fixup_message := fixup_commit.message
      let origHead := s.branchTip
      let s0 : EngineState := { s with rebaseInProgress := true }
      match apply_diff_in_rebase applyDiff diff ops s0 with
      | (s1, .error e) =>
        let r := print_help_and_abort_rebase first_parent origHead s1
        (r.1, r.2, .error e)
      | (s1, .ok _) =>
        match do_rebase_inner fixup_message ops s1 with
        | (s2, .ok _) =>
          ([], { s2 with branchTip := s2.head, rebaseInProgress := false }, .ok ())
        | (s2, .error e) =>
          let r := print_help_and_abort_rebase first_parent origHead s2
          (r.1, r.2, .error e)

/-- `do_fixup_commit` from src/lib.rs (lines 320-338): commit the current
index onto the branch tip with the `fixup!`/`squash!` sentinel message,
moving the branch (HEAD) to the new commit.  Returns the new state and
the amendment commit's id. -/
def do_fixup_commit (squash : Bool) (commit_to_amend : Oid) (author : String)
    (s : EngineState) : EngineState × Oid :=
  let msg := (if squash then "squash! " else "fixup! ") ++ oidStr commit_to_amend
  let head_commit := s.branchTip
  let id := s.nextOid
  ({ s with
      commits := (id, { message := some msg, author := author,
                        parents := [head_commit], tree := s.indexTree }) :: s.commits,
      nextOid := s.nextOid + 1,
      branchTip := id,
      head := id }, id)

/-- `worktree_is_dirty` from src/lib.rs (lines 309-317): true when the
HEAD-tree-to-index or index-to-workdir diff touches any file (trees are
modelled so that two trees differ exactly when the diff between them is
non-empty). -/
def worktree_is_dirty (s : EngineState) : Except String Bool :=
  match List.lookup s.branchTip s.commits with
  | none => .error "finding head commit"
  | some c => .ok (decide (c.tree ≠ s.indexTree ∨ s.indexTree ≠ s.workdirTree))

/-- `repo.stash_save`: push the index and working trees onto the stash and
reset both to the head commit's tree. -/
def stash_save (s : EngineState) : Except String EngineState :=
  match List.lookup s.branchTip s.commits with
  | none => .error "finding head commit for stash"
  | some c =>
    .ok { s with
      stash := (s.indexTree, s.workdirTree) :: s.stash,
      indexTree := c.tree,
      workdirTree := c.tree }

/-- `repo.stash_pop(0, None)`: restore the most recent stash entry. -/
def stash_pop (s : EngineState) : Except String EngineState :=
  match s.stash with
  | [] => .error "no stash entry to pop"
  | (idx, wd) :: rest =>
    .ok { s with indexTree := idx, workdirTree := wd, stash := rest }

/-- The stash-wrapped rebase phase of `instafix` from src/lib.rs (lines
52-66): stash when the worktree is dirty, run `do_rebase` (the `?` on its
call propagates an error immediately), and pop the stash only after a
successful rebase. -/
def instafix_stash_and_rebase (applyDiff : Nat → Nat → Option Nat)
    (ops : List (Except String RebaseOperation))
    (commit_to_amend : Oid) (diff : Nat) (s : EngineState) :
    List String × EngineState × Except String Unit :=
  match worktree_is_dirty s with
  | .error e => ([], s, .error e)
  | .ok needs_stash =>
    match (if needs_stash then stash_save s else .ok s) with
    | .error e => ([], s, .error e)
    | .ok s1 =>
      match do_rebase applyDiff ops commit_to_amend diff s1 with
      | (log, s2, .error e) => (log, s2, .error e)
      | (log, s2, .ok _) =>
        if needs_stash then
          match stash_pop s2 with
          | .error e => (log, s2, .error e)
          | .ok s3 => (log, s3, .ok ())
        else (log, s2, .ok ())

/-! ## The commit selector (src/lib.rs, lines 340-447) -/

/-- A commit as the selector sees it: its id and its one-line summary
(taken through `find_commit` on each oid the revision walk yields). -/
structure SelCommit where
  id : Oid
  summary : Option String
deriving DecidableEq

/-- The commit range built at the top of `select_commit_to_amend`
(src/lib.rs lines 346-362): the revision walk from HEAD, newest first,
cut at the boundary (exclusive) and capped at `max_commits`. -/
def commit_range (walk : List SelCommit) (upstream : Option Oid)
    (max_commits : Nat) : List SelCommit :=
  match upstream with
  | some u => (walk.takeWhile (fun c => c.id != u)).take max_commits
  | none => walk.take max_commits

/-- `commit_id_and_summary` from src/lib.rs (lines 429-441). -/
def commit_id_and_summary (commits : List SelCommit) (idx : Nat) : String :=
  match commits.get? idx with
  | some c => (oidStr c.id).take 10 ++ " (" ++ (c.summary.getD "<unknown>") ++ ")"
  | none => "<unknown>"

/-- Substring test, modelling Rust `str::contains`. -/
def strContains (s pat : String) : Bool :=
  s.data.tails.any (fun t => pat.data.isPrefixOf t)

/-- The predicate of the pattern scan: the commit's summary contains the
pattern (a summary-less commit never matches). -/
def summary_matches (pat : String) (c : SelCommit) : Bool :=
  (c.summary.map (fun s => strContains s pat)).getD false

/-- The error message of the failed pattern scan, naming the two ends of
the searched range (`first` is the oldest commit, at the last index). -/
def pattern_not_found_message (commits : List SelCommit) : String :=
  "No commit contains the pattern in its summary between " ++
    commit_id_and_summary commits (commits.length - 1) ++ ".." ++
    commit_id_and_summary commits 0

/-- The pattern branch of `select_commit_to_amend` (src/lib.rs lines
380-397): the first commit, newest first, whose summary contains the
pattern, or the `PatternNotFound` error. -/
def find_by_pattern (commits : List SelCommit) (message_pattern : String) :
    Except String SelCommit :=
  match commits.find? (summary_matches message_pattern) with
  | some c => .ok c
  | none => .error (pattern_not_found_message commits)

/-- The `EmptyRange` error message (src/lib.rs lines 363-369). -/
def no_commits_message (headRefDisp : String) (upstreamStr : String) : String :=
  "No commits between " ++ headRefDisp ++ " and " ++ upstreamStr

/-- `select_commit_to_amend` from src/lib.rs (lines 340-427).  `walk` is
the revision walk from HEAD (newest first); `headRefDisp` is
`format_ref(head)`; `userChoice` is the interactive selection (an error
models a cancelled interaction).  When the range is empty and there is no
upstream the source unwraps the absent upstream and panics. -/
def select_commit_to_amend (walk : List SelCommit) (upstream : Option Oid)
    (max_commits : Nat) (message_pattern : Option String)
    (headRefDisp : String) (userChoice : Except String Nat) :
    Except String SelCommit :=
  let commits := commit_range walk upstream max_commits
  if commits.isEmpty then
    match upstream with
    | some u => .error (no_commits_message headRefDisp (oidStr u))
    | none => .error "called Option::unwrap on a None value"
  else
    match message_pattern with
    | some pat => find_by_pattern commits pat
    | none =>
      match userChoice with
      | .error e => .error e
      | .ok i =>
        match commits.get? i with
        | some c => .ok c
        | none => .error "index out of bounds"

/-! ## The upstream/boundary resolver (src/lib.rs, lines 228-257) -/

/-- `DEFAULT_UPSTREAM_BRANCHES` from src/lib.rs line 18. -/
def DEFAULT_UPSTREAM_BRANCHES : List String := ["main", "master", "develop", "trunk"]

/-- The repository as the boundary resolver sees it: the local branches
(name to target commit), the head branch's target, its configured
upstream's commit if any, and the external merge-base primitive (`none`
models "no common ancestor"). -/
structure MergeRepo where
  localBranches : List (String × Oid)
  headTarget : Oid
  headUpstream : Option Oid
  mergeBase : Oid → Oid → Option Oid

/-- The tail of `get_merge_base`: the merge-base of the head target and
the chosen upstream candidate, as the returned boundary. -/
def merge_base_result (repo : MergeRepo) (upstream : Oid) : Except String (Option Oid) :=
  match repo.mergeBase repo.headTarget upstream with
  | some mb => .ok (some mb)
  | none => .error "no merge base found"

/-- The `find_map` over `DEFAULT_UPSTREAM_BRANCHES`: the first
conventional trunk name that exists as a local branch. -/
def find_default_upstream_branch (repo : MergeRepo) : Option Oid :=
  DEFAULT_UPSTREAM_BRANCHES.findSome? (fun b => List.lookup b repo.localBranches)

/-- `get_merge_base` from src/lib.rs (lines 228-257): choose the upstream
candidate by priority (explicit name, else first conventional trunk
branch, else the head branch's configured upstream, else none), then
return the merge-base of the candidate and the head target. -/
def get_merge_base (repo : MergeRepo) (upstream_name : Option String) :
    Except String (Option Oid) :=
  match upstream_name with
  | some explicit_upstream_name =>
    match List.lookup explicit_upstream_name repo.localBranches with
    | none => .error ("could not find branch " ++ explicit_upstream_name)
    | some upstream => merge_base_result repo upstream
  | none =>
    match find_default_upstream_branch repo with
    | some upstream => merge_base_result repo upstream
    | none =>
      match repo.headUpstream with
      | some upstream => merge_base_result repo upstream
      | none => .ok none

/-! ## The selecter.rs variant of the selector (src/selecter.rs) -/

namespace Selecter

/-- `CommitSelection` from src/selecter.rs: the upstream boundary commit
and the full name of the reference it came from
(`upstream.reference.name()`). -/
structure CommitSelection where
  commit : Oid
  refName : Option String
deriving DecidableEq

/-- The gitconfig key `config::UPSTREAM_SETTING` named in the
no-divergence message.  The constant is not present in the src/ snapshot
of config.rs; modelled from config.rs's documented gitconfig key
`instafix.default-upstream-branch`.  Only its text matters, and only
inside this message. -/
def UPSTREAM_SETTING : String := "instafix.default-upstream-branch"

/-- The `NoDivergence` error message of src/selecter.rs (lines 42-48). -/
def no_divergence_message (upstream_setting current_branch_name : String) : String :=
  "HEAD is already pointing at a common upstream branch\n" ++
  "If you don\x27t create branches for your work consider setting upstream to a remote ref:\n" ++
  "\n    git config " ++ upstream_setting ++ " origin/" ++ current_branch_name

/-- The part of src/selecter.rs `select_commit_to_amend` after the
no-divergence guard: the empty-range check (whose message quotes the
upstream with `{:?}`), then the pattern scan or the interactive choice. -/
def select_rest (commits : List SelCommit) (upstream : Option CommitSelection)
    (headRefDisp : String) (message_pattern : Option String)
    (userChoice : Except String Nat) : Except String SelCommit :=
  if commits.isEmpty then
    .error ("No commits between " ++ headRefDisp ++ " and " ++
      (match upstream with
       | some u => "\"" ++ oidStr u.commit ++ "\""
       | none => "\"<no upstream>\""))
  else
    match message_pattern with
    | some pat => find_by_pattern commits pat
    | none =>
      match userChoice with
      | .error e => .error e
      | .ok i =>
        match commits.get? i with
        | some c => .ok c
        | none => .error "index out of bounds"

/-- `select_commit_to_amend` from src/selecter.rs (lines 18-124):
as the lib.rs version, but with the guard of lines 35-50: when the head
commit equals the upstream commit AND the head's short name equals the
upstream reference's full name, fail with the no-divergence message.
`headShorthand` is `head.shorthand()`; the `unwrap` of a nameless
upstream reference is modelled as a panic error. -/
def select_commit_to_amend (walk : List SelCommit)
    (upstream : Option CommitSelection) (max_commits : Nat)
    (message_pattern : Option String) (headTip : Oid)
    (headShorthand : Option String) (headRefDisp : String)
    (userChoice : Except String Nat) : Except String SelCommit :=
  match upstream with
  | some u =>
    let commits := (walk.takeWhile (fun c => c.id != u.commit)).take max_commits
    match headShorthand with
    | none => .error "HEAD\x27s name is invalid utf-8"
    | some current_branch_name =>
      if headTip = u.commit then
        match u.refName with
        | none => .error "called Option::unwrap on a None value"
        | some rn =>
          if current_branch_name = rn then
            .error (no_divergence_message UPSTREAM_SETTING current_branch_name)
          else
            select_rest commits (some u) headRefDisp message_pattern userChoice
      else
        select_rest commits (some u) headRefDisp message_pattern userChoice
  | none =>
    select_rest (walk.take max_commits) none headRefDisp message_pattern userChoice

end Selecter

/-! ## The amendment diff builder (src/patcher.rs / src/lib.rs create_diff) -/

namespace Patcher

/-- The repository as the diff builder sees it: the HEAD tree, the index
tree and the working tree, plus the external diff-stats primitives (each
takes the two endpoints of a diff). -/
structure PatcherRepo where
  headTree : Nat
  index : Nat
  workdir : Nat
  filesChanged : Nat → Nat → Nat
  insertions : Nat → Nat → Nat
  deletions : Nat → Nat → Nat

/-- The rendering chosen for the unstaged diff (src/lib.rs lines
273-285): a diffstat when the change is at least the terminal cutoff,
otherwise the full diff (whose own length check is part of the excluded
terminal rendering).  Only the choice is modelled; the rendered text is
out of scope. -/
def display_unstaged (repo : PatcherRepo) (height : Option Nat) : List String :=
  let h := height.getD 24
  let cutoff_height := h - 5
  let total_change := repo.insertions repo.index repo.workdir +
    repo.deletions repo.index repo.workdir
  if cutoff_height ≤ total_change then ["Unstaged changes: diffstat"]
  else ["Unstaged changes: diff"]

/-- `create_diff` from src/lib.rs (lines 260-307) / src/patcher.rs: if
the HEAD-to-index diff touches a file it is the amendment; otherwise, if
the index-to-workdir diff touches a file, show it and ask for
confirmation — declined confirmation fails with the empty message, a
failed (cancelled) interaction propagates its own error, and an
affirmative answer applies the dirty diff to the index and recomputes the
HEAD-to-index diff; with no changes at all, fail with the
nothing-to-amend message.  A diff is its pair of tree endpoints;
`confirm` is the external confirmation primitive.  Returns the final
repository, the display lines, and the diff. -/
def create_diff (repo : PatcherRepo) (height : Option Nat)
    (confirm : Except String Bool) :
    PatcherRepo × List String × Except String (Nat × Nat) :=
  let head_tree := repo.headTree
  let staged_diff := (head_tree, repo.index)
  if repo.filesChanged head_tree repo.index = 0 then
    if 0 < repo.filesChanged repo.index repo.workdir then
      match confirm with
      | .error e => (repo, display_unstaged repo height, .error e)
      | .ok false => (repo, display_unstaged repo height, .error "")
      | .ok true =>
        let repo2 : PatcherRepo := { repo with index := repo.workdir }
        (repo2, display_unstaged repo height, .ok (head_tree, repo2.index))
    else
      (repo, [], .error "Nothing staged and no tracked files have any changes")
  else
    (repo, ["Staged changes: diffstat"], .ok staged_diff)

end Patcher

/-! ## Concrete repositories and runs used as witnesses and counterexamples -/

/-- A three-commit walk (newest first) used to exercise the selector. -/
def cexWalk : List SelCommit := [⟨1, some "x"⟩, ⟨2, some "y"⟩, ⟨3, some "z"⟩]

/-- A repository with a `main` branch for the boundary resolver. -/
def wMergeRepo : MergeRepo :=
  { localBranches := [("main", 5)], headTarget := 9, headUpstream := none,
    mergeBase := fun a b => some (Nat.min a b) }

/-- A two-commit range in which no summary contains "zzz". -/
def wNoMatch : List SelCommit := [⟨1, some "add foo"⟩, ⟨2, some "fix bar"⟩]

/-- An engine state whose commit 5 has a message that is not valid UTF-8
(`message = none`). -/
def cexStateC2 : EngineState :=
  { commits := [(5, ⟨none, "au", [4], 50⟩)], branches := [], branchTip := 5,
    head := 9, indexTree := 50, workdirTree := 50, nextOid := 200,
    stash := [], rebaseInProgress := true }

/-- An engine state with an ordinary commit 2 and a branch pointing at it. -/
def wStateC2 : EngineState :=
  { commits := [(2, ⟨some "t", "au", [1], 20⟩)],
    branches := [(2, [⟨some "feat", 2⟩])], branchTip := 9, head := 7,
    indexTree := 0, workdirTree := 0, nextOid := 300, stash := [],
    rebaseInProgress := true }

/-- A repository with nothing staged and one dirty worktree file. -/
def cexPatcherRepo : Patcher.PatcherRepo :=
  { headTree := 0, index := 0, workdir := 1,
    filesChanged := fun a b => if a = b then 0 else 1,
    insertions := fun _ _ => 1, deletions := fun _ _ => 0 }

/-- A completely clean repository for the diff builder. -/
def wPatcherRepo0 : Patcher.PatcherRepo :=
  { headTree := 0, index := 0, workdir := 0,
    filesChanged := fun _ _ => 0,
    insertions := fun _ _ => 0, deletions := fun _ _ => 0 }

/-- An engine state whose branch tip is a root commit. -/
def wRootState : EngineState :=
  { commits := [(1, ⟨some "a", "au", [], 10⟩)], branches := [], branchTip := 1,
    head := 1, indexTree := 10, workdirTree := 10, nextOid := 50,
    stash := [], rebaseInProgress := false }

/-- A branch index with two branches under commit 2 and one under 5. -/
def wBranchMap : RepoBranches :=
  [(2, [⟨some "a", 2⟩, ⟨some "b", 2⟩]), (5, [⟨some "c", 5⟩])]

/-- A two-commit repository with a staged change, before the amendment
commit is created. -/
def exStateC1 : EngineState :=
  { commits := [(2, ⟨some "t", "au", [1], 20⟩), (1, ⟨some "a", "au", [], 10⟩)],
    branches := [(2, [⟨some "main", 2⟩])], branchTip := 2, head := 2,
    indexTree := 25, workdirTree := 25, nextOid := 100, stash := [],
    rebaseInProgress := false }

/-- `exStateC1` right after the amendment (fixup) commit is created. -/
def exS1C1 : EngineState := (do_fixup_commit false 2 "au" exStateC1).1

/-- The state after a rebase of `exS1C1` whose first step fails. -/
def exS2C1 : EngineState :=
  (do_rebase (fun d t => some (d + t)) [.error "conflict"] 2 7 exS1C1).2.1

/-- A three-commit repository (root 1, target 2, fixup tip 3) with a dirty
worktree, as `instafix` sees it right before stashing. -/
def c4State : EngineState :=
  { commits := [(3, ⟨some "fixup! 2", "au", [2], 30⟩),
                (2, ⟨some "t", "au", [1], 20⟩),
                (1, ⟨some "a", "au", [], 10⟩)],
    branches := [], branchTip := 3, head := 3, indexTree := 30,
    workdirTree := 31, nextOid := 100, stash := [], rebaseInProgress := false }

/-- As `c4State` but with the branch index populated, for a successful
run. -/
def c4Good : EngineState :=
  { commits := [(3, ⟨some "fixup! 2", "au", [2], 30⟩),
                (2, ⟨some "t", "au", [1], 20⟩),
                (1, ⟨some "a", "au", [], 10⟩)],
    branches := [(3, [⟨some "changes", 3⟩])], branchTip := 3, head := 3,
    indexTree := 30, workdirTree := 31, nextOid := 100, stash := [],
    rebaseInProgress := false }

/-- The rebase primitive's step stream for a successful run over
`c4Good`: replay commit 2, then the leftover amendment commit 3. -/
def c4Ops : List (Except String RebaseOperation) :=
  [.ok ⟨some .Pick, 2⟩, .ok ⟨some .Pick, 3⟩]

/-- `c4Good` after `stash_save`. -/
def c4S1 : EngineState :=
  { c4Good with stash := [(30, 31)], indexTree := 30, workdirTree := 30 }

/-- The state after the successful rebase of `c4S1`. -/
def c4S2 : EngineState :=
  (do_rebase (fun d t => some (d + t)) c4Ops 2 7 c4S1).2.1

/-- `c4S2` after popping the stash. -/
def c4S3 : EngineState :=
  { c4S2 with indexTree := 30, workdirTree := 31, stash := [] }

/-! ## Helper lemmas -/

theorem find?_first {α : Type} (p : α → Bool) :
    ∀ (l : List α) (a : α), l.find? p = some a →
      p a = true ∧ ∃ i, l.get? i = some a ∧
        ∀ j, j < i → ∀ d, l.get? j = some d → p d = false := by
  intro l
  induction l with
  | nil => intro a h; simp at h
  | cons x xs ih =>
    intro a h
    by_cases hx : p x
    · rw [List.find?_cons_of_pos _ hx] at h
      obtain rfl : x = a := by injection h
      refine ⟨hx, 0, rfl, ?_⟩
      intro j hj
      omega
    · rw [List.find?_cons_of_neg _ hx] at h
      obtain ⟨hpa, i, hi, hlt⟩ := ih a h
      refine ⟨hpa, i + 1, by simpa using hi, ?_⟩
      intro j hj d hd
      cases j with
      | zero =>
        obtain rfl : x = d := by simpa using hd
        simpa using hx
      | succ j' => exact hlt j' (by omega) d (by simpa using hd)

/-! ## C3: the selector's commit range -/

/-- C3 (counterexample): the claim says the range is empty exactly when
the tip equals the boundary or the walk exhausts `max_count` commits
before finding the boundary.  With the walk 1,2,3, boundary 3 and
`max_count = 2`, the walk does exhaust the count before reaching the
boundary, yet the range is the non-empty 1,2 — so the claimed equivalence
is false. -/
theorem commit_range_empty_iff_refuted :
    ¬ ((commit_range cexWalk (some 3) 2 = []) ↔
      ((cexWalk.head?.map SelCommit.id = some 3) ∨
        ¬ (3 ∈ (cexWalk.take 2).map SelCommit.id))) := by
  decide

/-- C3 (amended): when the boundary is a proper ancestor of the tip (so
the walk starts at a tip different from the boundary), the range never
contains the boundary, has at most `max_commits` commits, is empty
exactly when `max_commits = 0`, and an empty range makes the selector
fail with the error naming the head and the boundary. -/
theorem commit_range_spec (walk : List SelCommit) (u : Oid) (max_commits : Nat)
    (tip : SelCommit) (headRefDisp : String) (mp : Option String)
    (uc : Except String Nat)
    (hhead : walk.head? = some tip) (hne : tip.id ≠ u) :
    (∀ c ∈ commit_range walk (some u) max_commits, c.id ≠ u) ∧
    ((commit_range walk (some u) max_commits).length ≤ max_commits) ∧
    (commit_range walk (some u) max_commits = [] ↔ max_commits = 0) ∧
    (commit_range walk (some u) max_commits = [] →
      select_commit_to_amend walk (some u) max_commits mp headRefDisp uc =
        .error (no_commits_message headRefDisp (oidStr u))) := by
  refine ⟨?_, ?_, ?_, ?_⟩
  · intro c hc
    have hmem : c ∈ walk.takeWhile (fun c => c.id != u) :=
      List.take_subset _ _ hc
    have := List.mem_takeWhile_imp hmem
    simpa using this
  · simp only [commit_range, List.length_take]
    exact inf_le_left
  · cases walk with
    | nil => simp at hhead
    | cons x t =>
      obtain rfl : x = tip := by simpa using hhead
      simp only [commit_range]
      rw [List.takeWhile_cons_of_pos (by simpa using hne)]
      rw [List.take_eq_nil_iff]
      simp
  · intro h
    simp [select_commit_to_amend, h]

/-- C3 (witness for the amended theorem): the concrete walk 1,2,3 with
boundary 3 and `max_count = 2`. -/
theorem commit_range_spec_witness :
    (∀ c ∈ commit_range cexWalk (some 3) 2, c.id ≠ 3) ∧
    ((commit_range cexWalk (some 3) 2).length ≤ 2) ∧
    (commit_range cexWalk (some 3) 2 = [] ↔ (2 : Nat) = 0) ∧
    (commit_range cexWalk (some 3) 2 = [] →
      select_commit_to_amend cexWalk (some 3) 2 none "changes (1)" (.ok 0) =
        .error (no_commits_message "changes (1)" (oidStr 3))) :=
  commit_range_spec cexWalk 3 2 ⟨1, some "x"⟩ "changes (1)" none (.ok 0) rfl
    (by decide)

/-! ## C6: the upstream/boundary resolver -/

/-- C6: `get_merge_base` picks its candidate by priority — an explicit
upstream name (failing when absent), else the first conventional trunk
branch of `main`, `master`, `develop`, `trunk`, else the head branch's
configured upstream, else no boundary — and whenever a candidate is
found returns the merge-base of the candidate and the head target, not
the candidate itself. -/
theorem get_merge_base_priority (repo : MergeRepo) (upstream_name : Option String) :
    (∀ n, upstream_name = some n → List.lookup n repo.localBranches = none →
      get_merge_base repo upstream_name = .error ("could not find branch " ++ n)) ∧
    (∀ n c, upstream_name = some n → List.lookup n repo.localBranches = some c →
      get_merge_base repo upstream_name = merge_base_result repo c) ∧
    (∀ c, upstream_name = none → List.lookup "main" repo.localBranches = some c →
      get_merge_base repo upstream_name = merge_base_result repo c) ∧
    (∀ c, upstream_name = none → find_default_upstream_branch repo = some c →
      get_merge_base repo upstream_name = merge_base_result repo c) ∧
    (∀ c, upstream_name = none → find_default_upstream_branch repo = none →
      repo.headUpstream = some c →
      get_merge_base repo upstream_name = merge_base_result repo c) ∧
    (upstream_name = none → find_default_upstream_branch repo = none →
      repo.headUpstream = none → get_merge_base repo upstream_name = .ok none) ∧
    (∀ c mb, merge_base_result repo c = .ok (some mb) →
      repo.mergeBase repo.headTarget c = some mb) := by
  refine ⟨?_, ?_, ?_, ?_, ?_, ?_, ?_⟩
  · rintro n rfl h
    simp [get_merge_base, h]
  · rintro n c rfl h
    simp [get_merge_base, h]
  · rintro c rfl h
    have hd : find_default_upstream_branch repo = some c := by
      simp [find_default_upstream_branch, DEFAULT_UPSTREAM_BRANCHES,
        List.findSome?_cons, h]
    simp [get_merge_base, hd]
  · rintro c rfl h
    simp [get_merge_base, h]
  · rintro c rfl h h2
    simp [get_merge_base, h, h2]
  · rintro rfl h h2
    simp [get_merge_base, h, h2]
  · intro c mb h
    rcases hm : repo.mergeBase repo.headTarget c with _ | v
    · simp [merge_base_result, hm] at h
    · simp [merge_base_result, hm] at h
      exact congrArg some h

/-- C6 (witness): on a repository whose only branch is `main` at commit 5
with head target 9, the resolver returns the merge-base (here
`min 9 5 = 5`). -/
theorem get_merge_base_priority_witness :
    get_merge_base wMergeRepo none = .ok (some 5) := by
  have h := (get_merge_base_priority wMergeRepo none).2.2.1 5 rfl rfl
  exact h.trans rfl

/-! ## C7: pattern-based commit selection -/

/-- C7: with a textual pattern, the selector returns the first commit in
newest-first order whose summary contains the pattern, and when no commit
in the range matches it fails with the error naming the first (oldest)
and last (newest) commit of the searched range. -/
theorem find_by_pattern_spec (commits : List SelCommit) (pat : String) :
    (∀ c, find_by_pattern commits pat = .ok c →
      summary_matches pat c = true ∧
      ∃ i, commits.get? i = some c ∧
        ∀ j, j < i → ∀ d, commits.get? j = some d →
          summary_matches pat d = false) ∧
    ((∀ c ∈ commits, summary_matches pat c = false) →
      find_by_pattern commits pat =
        .error (pattern_not_found_message commits)) := by
  constructor
  · intro c hc
    rcases hf : commits.find? (summary_matches pat) with _ | c'
    · simp [find_by_pattern, hf] at hc
    · have : c' = c := by simpa [find_by_pattern, hf] using hc
      subst this
      exact find?_first _ _ _ hf
  · intro hall
    have hn : commits.find? (summary_matches pat) = none :=
      List.find?_eq_none.mpr (fun x hx => by simp [hall x hx])
    simp [find_by_pattern, hn]

/-- C7 (witness): in a range whose summaries are "add foo" and "fix bar",
the pattern "zzz" matches nothing and the scan fails with the message
naming both ends of the range. -/
theorem find_by_pattern_spec_witness :
    find_by_pattern wNoMatch "zzz" = .error (pattern_not_found_message wNoMatch) :=
  (find_by_pattern_spec wNoMatch "zzz").2 (by decide)

/-! ## C5: branch retargeting with observability records -/

theorem lookup_map_update_self (m : RepoBranches) (orig : Oid)
    (f : List BranchRef → List BranchRef) :
    List.lookup orig (m.map fun e => if e.1 = orig then (e.1, f e.2) else e) =
      (List.lookup orig m).map f := by
  induction m with
  | nil => rfl
  | cons hd tl ih =>
    rcases hd with ⟨k, v⟩
    by_cases hk : k = orig
    · subst hk
      simp [List.lookup_cons]
    · have h2 : (orig == k) = false := beq_eq_false_iff_ne.mpr (Ne.symm hk)
      simp [List.lookup_cons, hk, h2, ih]

theorem lookup_map_update_ne (m : RepoBranches) (orig o : Oid)
    (f : List BranchRef → List BranchRef) (h : o ≠ orig) :
    List.lookup o (m.map fun e => if e.1 = orig then (e.1, f e.2) else e) =
      List.lookup o m := by
  induction m with
  | nil => rfl
  | cons hd tl ih =>
    rcases hd with ⟨k, v⟩
    by_cases hk : k = orig
    · have h2 : (o == orig) = false := beq_eq_false_iff_ne.mpr h
      subst hk
      simp [List.lookup_cons, h2, ih]
    · cases ho : (o == k) with
      | true => simp [List.lookup_cons, hk, ho]
      | false => simp [List.lookup_cons, hk, ho, ih]

theorem buildRetargets_ok (orig tgt : Oid) :
    ∀ (bs : List BranchRef), (∀ b ∈ bs, b.name ≠ none) →
      Rebaser.buildRetargets bs orig tgt =
        .ok (bs.map fun b => ⟨b.name.getD "", orig, tgt⟩) := by
  intro bs
  induction bs with
  | nil => intro _; rfl
  | cons b rest ih =>
    intro h
    rcases hb : b.name with _ | n
    · exact absurd hb (h b (by simp))
    · have hr := ih (fun x hx => h x (by simp [hx]))
      simp [Rebaser.buildRetargets, hb, hr]

/-- C5: for a retarget call on a branch index (all involved branches
named): when the rewrite's current step is not the last one, every branch
indexed under the original identity has its target moved to the new
identity, one `{name, from, to}` record is produced per such branch, and
every other index entry is untouched; when the current step is the last
one, nothing at all is moved and no record is produced. -/
theorem rebaser_retarget_branches_spec (m : RepoBranches) (orig tgt : Oid)
    (cur : Option Nat) (len : Nat) (branches : List BranchRef)
    (hb : List.lookup orig m = some branches)
    (hnames : ∀ b ∈ branches, b.name ≠ none) :
    (cur ≠ some (len - 1) →
      ∃ m', Rebaser.retarget_branches m orig tgt cur len =
          .ok (m', branches.map (fun b => ⟨b.name.getD "", orig, tgt⟩)) ∧
        List.lookup orig m' =
          some (branches.map (fun b => { b with target := tgt })) ∧
        (∀ o, o ≠ orig → List.lookup o m' = List.lookup o m)) ∧
    (cur = some (len - 1) →
      Rebaser.retarget_branches m orig tgt cur len = .ok (m, [])) := by
  constructor
  · intro hcur
    refine ⟨m.map (fun e => if e.1 = orig
        then (e.1, e.2.map (fun b => { b with target := tgt })) else e),
      ?_, ?_, ?_⟩
    · simp [Rebaser.retarget_branches, hb, hcur,
        buildRetargets_ok orig tgt branches hnames]
    · rw [lookup_map_update_self, hb]
      rfl
    · intro o ho
      exact lookup_map_update_ne m orig o _ ho
  · intro hcur
    simp [Rebaser.retarget_branches, hb, hcur]

/-- C5 (witness): two named branches under commit 2 move to 99 with their
records, and the entry under 5 is untouched. -/
theorem rebaser_retarget_branches_spec_witness :
    ∃ m', Rebaser.retarget_branches wBranchMap 2 99 (some 0) 3 =
        .ok (m', [⟨"a", 2, 99⟩, ⟨"b", 2, 99⟩]) ∧
      List.lookup 2 m' = some [⟨some "a", 99⟩, ⟨some "b", 99⟩] ∧
      (∀ o, o ≠ 2 → List.lookup o m' = List.lookup o wBranchMap) :=
  (rebaser_retarget_branches_spec wBranchMap 2 99 (some 0) 3
    [⟨some "a", 2⟩, ⟨some "b", 2⟩] rfl (by decide)).1 (by decide)

/-! ## C8: the no-divergence guard -/

/-- C8 (code bug): in the intended scenario — HEAD is on the trunk
branch, so the boundary commit equals the head tip and the boundary
branch is the current branch — the guard of src/selecter.rs compares
HEAD's short name ("main") with the upstream reference's full name
("refs/heads/main").  They are never equal for a branch reference, so
the guard does not fire and the generic empty-range error is produced
instead of the descriptive no-divergence error the claim (and the bail
message's own text) intends. -/
theorem selecter_no_divergence_guard_dead :
    Selecter.select_commit_to_amend [⟨10, some "d"⟩]
        (some ⟨10, some "refs/heads/main"⟩) 15 none 10 (some "main")
        "main (10)" (.ok 0) =
      .error "No commits between main (10) and \"10\"" ∧
    Selecter.no_divergence_message Selecter.UPSTREAM_SETTING "main" ≠
      "No commits between main (10) and \"10\"" :=
  ⟨rfl, by decide⟩

/-! ## C9: the amendment diff builder -/

/-- C9 (counterexample): the claim says a declined or cancelled
confirmation fails with an error whose message is empty, but a cancelled
(failed) interaction propagates its own error through the `?` on
`interact()`: here the non-empty message "interrupted". -/
theorem create_diff_cancelled_message_not_empty :
    (Patcher.create_diff cexPatcherRepo (some 40) (.error "interrupted")).2.2 =
      .error "interrupted" ∧ "interrupted" ≠ "" :=
  ⟨rfl, by decide⟩

/-- C9 (amended): the diff builder returns the staged diff whenever it
touches a file; otherwise, with working-tree changes present, a declined
confirmation fails with the empty-message error, a cancelled interaction
propagates its own error, and an affirmative confirmation applies the
dirty diff to the index and returns the recomputed staged diff; with no
changes at all it fails with the nothing-to-amend error, leaving the
repository untouched in every failing case. -/
theorem create_diff_policy (repo : Patcher.PatcherRepo) (height : Option Nat)
    (confirm : Except String Bool) :
    (0 < repo.filesChanged repo.headTree repo.index →
      Patcher.create_diff repo height confirm =
        (repo, ["Staged changes: diffstat"], .ok (repo.headTree, repo.index))) ∧
    (repo.filesChanged repo.headTree repo.index = 0 →
      0 < repo.filesChanged repo.index repo.workdir →
      ((confirm = .ok false →
        Patcher.create_diff repo height confirm =
          (repo, Patcher.display_unstaged repo height, .error "")) ∧
       (∀ e, confirm = .error e →
        Patcher.create_diff repo height confirm =
          (repo, Patcher.display_unstaged repo height, .error e)) ∧
       (confirm = .ok true →
        Patcher.create_diff repo height confirm =
          ({ repo with index := repo.workdir },
            Patcher.display_unstaged repo height,
            .ok (repo.headTree, repo.workdir))))) ∧
    (repo.filesChanged repo.headTree repo.index = 0 →
      repo.filesChanged repo.index repo.workdir = 0 →
      Patcher.create_diff repo height confirm =
        (repo, [], .error "Nothing staged and no tracked files have any changes")) := by
  refine ⟨?_, ?_, ?_⟩
  · intro h
    simp [Patcher.create_diff, Nat.pos_iff_ne_zero.mp h]
  · intro h0 hd
    refine ⟨?_, ?_, ?_⟩
    · rintro rfl
      simp [Patcher.create_diff, h0, hd]
    · rintro e rfl
      simp [Patcher.create_diff, h0, hd]
    · rintro rfl
      simp [Patcher.create_diff, h0, hd]
  · intro h0 hd0
    simp [Patcher.create_diff, h0, hd0]

/-- C9 (witness for the amended theorem): a clean repository fails with
the nothing-to-amend message. -/
theorem create_diff_policy_witness :
    Patcher.create_diff wPatcherRepo0 none (.ok true) =
      (wPatcherRepo0, [], .error "Nothing staged and no tracked files have any changes") :=
  (create_diff_policy wPatcherRepo0 none (.ok true)).2.2 rfl rfl

/-! ## C2: dispatch of the replay steps -/

/-- C2 (counterexample): the claim says a pick step whose message differs
from the amendment's sentinel is committed (a new identity is created).
Commit 5 of `cexStateC2` has no UTF-8 message (`none`), which differs
from the sentinel `some "fixup! 2"`, yet the step leaves the state
completely unchanged: no commit is created and nothing is retargeted,
because the source requires `message.is_some()` before committing. -/
theorem rebase_step_pick_absent_message_not_committed :
    List.lookup (5 : Oid) cexStateC2.commits = some ⟨none, "au", [4], 50⟩ ∧
    (none : Option String) ≠ some "fixup! 2" ∧
    rebase_step (some "fixup! 2") 3 (.ok ⟨some .Pick, 5⟩) 1 cexStateC2 =
      .next cexStateC2 :=
  ⟨rfl, by simp, rfl⟩

/-- C2 (amended): for a step after the first one — a pick whose commit
message is absent or equals the sentinel is skipped (state unchanged); a
pick whose message is present and differs is committed verbatim with a
fresh identity and its branches retargeted; a squash, exec, edit, reword
or fixup step fails with the unsupported-operation error. -/
theorem rebase_step_dispatch (fixup_message : Option String)
    (rebase_len idx : Nat) (kind : Option RebaseOperationType) (oid : Oid)
    (s : EngineState) (c : CommitData)
    (hfind : List.lookup oid s.commits = some c) :
    (kind = some .Pick → (c.message = none ∨ c.message = fixup_message) →
      rebase_step fixup_message rebase_len (.ok ⟨kind, oid⟩) idx s = .next s) ∧
    (kind = some .Pick → c.message ≠ none → c.message ≠ fixup_message →
      rebase_step fixup_message rebase_len (.ok ⟨kind, oid⟩) idx s = .next
        { s with
          commits := (s.nextOid, { c with parents := [s.head] }) :: s.commits,
          nextOid := s.nextOid + 1,
          head := s.nextOid,
          branches := retarget_branches s.branches oid s.nextOid
            (some idx) rebase_len }) ∧
    (∀ k, kind = some k → k ≠ .Pick →
      rebase_step fixup_message rebase_len (.ok ⟨kind, oid⟩) idx s =
        .fail s ("Unable to handle " ++ kindName k ++ " rebase operation")) := by
  refine ⟨?_, ?_, ?_⟩
  · rintro rfl hm
    rcases hm with hm | hm <;> simp [rebase_step, hfind, hm]
  · rintro rfl hm1 hm2
    simp [rebase_step, hfind, rebase_commit, Option.isSome_iff_ne_none, hm1, hm2]
  · rintro k rfl hkp
    cases k with
    | Pick => exact absurd rfl hkp
    | Reword => simp [rebase_step, kindName]
    | Edit => simp [rebase_step, kindName]
    | Squash => simp [rebase_step, kindName]
    | Fixup => simp [rebase_step, kindName]
    | Exec => simp [rebase_step, kindName]

/-- C2 (witness for the amended theorem): a pick of commit 2 (message
"t", differing from the sentinel) is committed as the fresh id 300 with
its branch index retargeted. -/
theorem rebase_step_dispatch_witness :
    rebase_step (some "fixup! 9") 3 (.ok ⟨some .Pick, 2⟩) 1 wStateC2 =
      .next { wStateC2 with
        commits := (300, ⟨some "t", "au", [7], 20⟩) :: wStateC2.commits,
        nextOid := 301,
        head := 300,
        branches := retarget_branches wStateC2.branches 2 300 (some 1) 3 } :=
  (rebase_step_dispatch (some "fixup! 9") 3 1 (some .Pick) 2 wStateC2
    ⟨some "t", "au", [1], 20⟩ rfl).2.1 rfl (by simp) (by simp)

/-! ## C10: amending a root commit -/

/-- C10: when the selected commit has no parent, `do_rebase` fails at
`commit_parent` with an error naming that commit, before the rewrite is
started: the state is returned unchanged and nothing is printed. -/
theorem do_rebase_root_commit (applyDiff : Nat → Nat → Option Nat)
    (ops : List (Except String RebaseOperation)) (diff : Nat)
    (s : EngineState) (target : Oid) (c : CommitData)
    (hfind : List.lookup target s.commits = some c) (hroot : c.parents = []) :
    do_rebase applyDiff ops target diff s =
      ([], s, .error ("Commit \x27" ++ disp target c ++ "\x27 has no parents")) := by
  have hp : commit_parent s.commits target =
      .error ("Commit \x27" ++ disp target c ++ "\x27 has no parents") := by
    unfold commit_parent
    rw [hfind]
    simp [hroot]
  unfold do_rebase
  rw [hp]

/-- C10 (witness): amending the root commit 1 fails naming it, with the
state unchanged. -/
theorem do_rebase_root_commit_witness :
    do_rebase (fun _ t => some t) [] 1 0 wRootState =
      ([], wRootState, .error "Commit \x271 a\x27 has no parents") :=
  do_rebase_root_commit (fun _ t => some t) [] 0 wRootState 1
    ⟨some "a", "au", [], 10⟩ rfl rfl

/-! ## C1: abort-and-recover on any rewrite failure -/

theorem do_rebase_error_shape (applyDiff : Nat → Nat → Option Nat)
    (ops : List (Except String RebaseOperation)) (commit_to_amend : Oid)
    (diff : Nat) (s : EngineState) (log : List String) (s' : EngineState)
    (e : String) (p : Oid) (fixupC : CommitData)
    (hparent : commit_parent s.commits commit_to_amend = .ok p)
    (hfix : List.lookup s.branchTip s.commits = some fixupC)
    (hrun : do_rebase applyDiff ops commit_to_amend diff s = (log, s', .error e)) :
    s'.branchTip = s.branchTip ∧ s'.rebaseInProgress = false ∧
    log = rebase_help_lines p := by
  have h1 : do_rebase applyDiff ops commit_to_amend diff s =
      (match apply_diff_in_rebase applyDiff diff ops { s with rebaseInProgress := true } with
       | (s1, .error e1) =>
         (rebase_help_lines p, rebase_abort s.branchTip s1, .error e1)
       | (s1, .ok _) =>
         match do_rebase_inner fixupC.message ops s1 with
         | (s2, .ok _) =>
           ([], { s2 with branchTip := s2.head, rebaseInProgress := false },
             (.ok () : Except String Unit))
         | (s2, .error e2) =>
           (rebase_help_lines p, rebase_abort s.branchTip s2, .error e2)) := by
    unfold do_rebase
    rw [hparent, hfix]
    rfl
  rw [h1] at hrun
  rcases ha : apply_diff_in_rebase applyDiff diff ops
      { s with rebaseInProgress := true } with ⟨s1, r1⟩
  rw [ha] at hrun
  cases r1 with
  | error e1 =>
    simp only [Prod.mk.injEq] at hrun
    obtain ⟨hlog, hst, _⟩ := hrun
    subst hlog
    subst hst
    exact ⟨rfl, rfl, rfl⟩
  | ok u =>
    dsimp only at hrun
    rcases hb : do_rebase_inner fixupC.message ops s1 with ⟨s2, r2⟩
    rw [hb] at hrun
    cases r2 with
    | ok u2 => simp at hrun
    | error e2 =>
      simp only [Prod.mk.injEq] at hrun
      obtain ⟨hlog, hst, _⟩ := hrun
      subst hlog
      subst hst
      exact ⟨rfl, rfl, rfl⟩

/-- C1: after the amendment (fixup) commit has been created on the branch
tip, every failing run of the rebase engine aborts the in-progress
rebase before the error propagates, prints the recovery guidance naming
the parent of the selected commit, and leaves the current branch's tip
equal to the amendment commit. -/
theorem do_rebase_abort_recovery (applyDiff : Nat → Nat → Option Nat)
    (ops : List (Except String RebaseOperation)) (squash : Bool)
    (commit_to_amend : Oid) (author : String) (diff : Nat) (s : EngineState)
    (log : List String) (s2 : EngineState) (e : String) (p : Oid)
    (hparent : commit_parent
      (do_fixup_commit squash commit_to_amend author s).1.commits
      commit_to_amend = .ok p)
    (hrun : do_rebase applyDiff ops commit_to_amend diff
      (do_fixup_commit squash commit_to_amend author s).1 = (log, s2, .error e)) :
    s2.branchTip = (do_fixup_commit squash commit_to_amend author s).2 ∧
    s2.rebaseInProgress = false ∧
    ("    git rebase --interactive --autosquash " ++ oidStr p ++ "~") ∈ log := by
  have hfix : List.lookup
      (do_fixup_commit squash commit_to_amend author s).1.branchTip
      (do_fixup_commit squash commit_to_amend author s).1.commits =
      some { message := some ((if squash then "squash! " else "fixup! ") ++
               oidStr commit_to_amend),
             author := author, parents := [s.branchTip], tree := s.indexTree } := by
    simp [do_fixup_commit, List.lookup]
  obtain ⟨h1, h2, h3⟩ := do_rebase_error_shape applyDiff ops commit_to_amend
    diff _ log s2 e p _ hparent hfix hrun
  refine ⟨?_, h2, ?_⟩
  · rw [h1]
    simp [do_fixup_commit]
  · rw [h3]
    simp [rebase_help_lines]

/-- C1 (witness): a concrete run whose first rewrite step fails ends with
the branch tip back at the amendment commit and the guidance naming the
parent (commit 1) printed. -/
theorem do_rebase_abort_recovery_witness :
    exS2C1.branchTip = (do_fixup_commit false 2 "au" exStateC1).2 ∧
    exS2C1.rebaseInProgress = false ∧
    ("    git rebase --interactive --autosquash " ++ oidStr 1 ++ "~") ∈
      rebase_help_lines 1 :=
  do_rebase_abort_recovery (fun d t => some (d + t)) [.error "conflict"] false 2
    "au" 7 exStateC1 (rebase_help_lines 1) exS2C1 "No commit: conflict" 1 rfl rfl

/-! ## C4: stash restoration around the rewrite -/

theorem apply_diff_in_rebase_stash (applyDiff : Nat → Nat → Option Nat)
    (diff : Nat) (ops : List (Except String RebaseOperation)) (s : EngineState) :
    (apply_diff_in_rebase applyDiff diff ops s).1.stash = s.stash := by
  unfold apply_diff_in_rebase
  repeat' split
  all_goals rfl

theorem rebase_step_stash (fm : Option String) (len : Nat)
    (res : Except String RebaseOperation) (idx : Nat) (s : EngineState) :
    (rebase_step fm len res idx s).state.stash = s.stash := by
  unfold rebase_step
  repeat' split
  all_goals first
  | rfl
  | (dsimp only; split <;> rfl)

theorem rebase_loop_stash (fm : Option String) (len : Nat) :
    ∀ (l : List (Except String RebaseOperation)) (idx : Nat) (s : EngineState),
      (rebase_loop fm len l idx s).1.stash = s.stash := by
  intro l
  induction l with
  | nil => intro idx s; rfl
  | cons r rest ih =>
    intro idx s
    unfold rebase_loop
    cases h : rebase_step fm len r idx s with
    | next s1 =>
      have hs : s1.stash = s.stash := by
        have h2 := rebase_step_stash fm len r idx s
        rw [h] at h2
        exact h2
      rw [ih (idx + 1) s1, hs]
    | fail s1 e =>
      have hs : s1.stash = s.stash := by
        have h2 := rebase_step_stash fm len r idx s
        rw [h] at h2
        exact h2
      exact hs

theorem do_rebase_stash (applyDiff : Nat → Nat → Option Nat)
    (ops : List (Except String RebaseOperation)) (target : Oid) (diff : Nat)
    (s : EngineState) :
    (do_rebase applyDiff ops target diff s).2.1.stash = s.stash := by
  unfold do_rebase
  split
  · rfl
  · split
    · rfl
    · rename_i fixupC heq2
      rcases ha : apply_diff_in_rebase applyDiff diff ops
          { s with rebaseInProgress := true } with ⟨s1, r1⟩
      have hs1 : s1.stash = s.stash := by
        have h2 := apply_diff_in_rebase_stash applyDiff diff ops
          { s with rebaseInProgress := true }
        rw [ha] at h2
        exact h2
      dsimp only
      rw [ha]
      cases r1 with
      | error e1 =>
        simpa [print_help_and_abort_rebase, rebase_abort] using hs1
      | ok u =>
        rcases hb : do_rebase_inner fixupC.message ops s1 with ⟨s2, r2⟩
        have hs2 : s2.stash = s1.stash := by
          have h2 := rebase_loop_stash fixupC.message ops.length (ops.drop 1) 1 s1
          unfold do_rebase_inner at hb
          rw [hb] at h2
          exact h2
        dsimp only
        rw [hb]
        cases r2 with
        | ok u2 => simpa using hs2.trans hs1
        | error e2 =>
          simpa [print_help_and_abort_rebase, rebase_abort] using hs2.trans hs1

/-- C4 (counterexample): the claim says the stash is restored (popped) on
every exit path, including a failing rewrite.  In this concrete run the
worktree is dirty, the stash entry is saved, the rewrite fails — and the
operation returns with the entry still on the stash (the `?` on the
`do_rebase` call returns before `stash_pop`). -/
theorem instafix_stash_not_restored_on_error :
    (instafix_stash_and_rebase (fun d t => some (d + t)) [] 2 7 c4State).2.2 =
      .error "Unable to start rebase: no first step in rebase" ∧
    (instafix_stash_and_rebase (fun d t => some (d + t)) [] 2 7 c4State).2.1.stash =
      [(30, 31)] ∧
    c4State.stash = [] :=
  ⟨rfl, rfl, rfl⟩

/-- C4 (amended): when working-tree changes were stashed before the
rewrite, the stash is popped after a successful rewrite (the final stash
equals the original one), but a failing rewrite propagates its error with
the saved entry still on the stash — the restoration does not run on the
error path. -/
theorem instafix_stash_behavior (applyDiff : Nat → Nat → Option Nat)
    (ops : List (Except String RebaseOperation)) (commit_to_amend : Oid)
    (diff : Nat) (s s1 : EngineState)
    (hdirty : worktree_is_dirty s = .ok true)
    (hsave : stash_save s = .ok s1) :
    (∀ log s2, do_rebase applyDiff ops commit_to_amend diff s1 = (log, s2, .ok ()) →
      ∀ s3, stash_pop s2 = .ok s3 →
        instafix_stash_and_rebase applyDiff ops commit_to_amend diff s =
          (log, s3, .ok ()) ∧
        s3.stash = s.stash) ∧
    (∀ log s2 e, do_rebase applyDiff ops commit_to_amend diff s1 = (log, s2, .error e) →
      instafix_stash_and_rebase applyDiff ops commit_to_amend diff s =
        (log, s2, .error e) ∧
      s2.stash = (s.indexTree, s.workdirTree) :: s.stash) := by
  have hs1stash : s1.stash = (s.indexTree, s.workdirTree) :: s.stash := by
    unfold stash_save at hsave
    rcases h : List.lookup s.branchTip s.commits with _ | c
    · rw [h] at hsave
      simp at hsave
    · rw [h] at hsave
      have h2 := hsave
      simp only [Except.ok.injEq] at h2
      rw [← h2]
  constructor
  · intro log s2 hr s3 hpop
    have hs2 : s2.stash = s1.stash := by
      have h2 := do_rebase_stash applyDiff ops commit_to_amend diff s1
      rw [hr] at h2
      exact h2
    have hcons : s2.stash = (s.indexTree, s.workdirTree) :: s.stash :=
      hs2.trans hs1stash
    have hs3 : s3.stash = s.stash := by
      unfold stash_pop at hpop
      rw [hcons] at hpop
      simp only [Except.ok.injEq] at hpop
      rw [← hpop]
    refine ⟨?_, hs3⟩
    simp only [instafix_stash_and_rebase, hdirty, if_true, hsave, hr, hpop]
  · intro log s2 e hr
    have hs2 : s2.stash = s1.stash := by
      have h2 := do_rebase_stash applyDiff ops commit_to_amend diff s1
      rw [hr] at h2
      exact h2
    refine ⟨?_, hs2.trans hs1stash⟩
    simp only [instafix_stash_and_rebase, hdirty, if_true, hsave, hr]

/-- C4 (witness for the amended theorem): a successful dirty-worktree run
in which the stash is saved and popped, leaving the stash as it started. -/
theorem instafix_stash_behavior_witness :
    instafix_stash_and_rebase (fun d t => some (d + t)) c4Ops 2 7 c4Good =
      (([] : List String), c4S3, .ok ()) ∧
    c4S3.stash = c4Good.stash :=
  (instafix_stash_behavior (fun d t => some (d + t)) c4Ops 2 7 c4Good c4S1
    rfl rfl).1 [] c4S2 rfl c4S3 rfl

end GitInstafix
